import Mathlib

/-!
Verification of the incident priority classifier (api/src/ml/service.js and
api/src/ml/train.js) against its natural-language specification.

The JavaScript code is shallowly embedded: strings are Lean `String`s viewed
as lists of `Char` (faithful for the ASCII inputs the classifier handles; JS
`length`/`slice` count UTF-16 units, which coincide with code points on
ASCII), JS numbers used as counts are `Nat`, and the floating-point log-space
arithmetic is modelled over `ℝ` with `Real.log` / `Real.exp`.  JS objects
keyed by class labels are association lists `List (String × ℝ)` in insertion
order, matching the iteration order of `Object.keys`.
-/

namespace I2R

/-! ### Tokenizer (service.js, lines 65-85) -/

/-- The stopword set `STOP` of service.js (verbatim). -/
def STOP : List String :=
  ["the","a","an","and","or","but","of","on","at","to","for","from","by","with","in","into","over","under",
   "is","are","was","were","be","been","being","this","that","these","those","as","it","its","we","you"]

/-- ASCII model of JS `String.prototype.toLowerCase` (the classifier's
inputs and all rule patterns are ASCII). -/
def jsToLower (c : Char) : Char :=
  if ('A' ≤ c && c ≤ 'Z') then Char.ofNat (c.toNat + 32) else c

/-- Characters kept by the split regex `/[^a-z0-9]+/g`: after lowercasing,
everything outside `[a-z0-9]` is a separator. -/
def isTokChar (c : Char) : Bool :=
  ('a' ≤ c && c ≤ 'z') || ('0' ≤ c && c ≤ '9')

/-- Split a character list on non-token characters, dropping empty pieces
(this is `.split(/[^a-z0-9]+/g).filter(Boolean)`). -/
def splitTok : List Char → List Char → List (List Char)
  | acc, [] => if acc.isEmpty then [] else [acc.reverse]
  | acc, c :: cs =>
      if isTokChar c then splitTok (c :: acc) cs
      else if acc.isEmpty then splitTok [] cs
      else acc.reverse :: splitTok [] cs

/-- `lightStem` of service.js: the ordered suffix-stripping chain.  The JS
guards test the length of the *original* word `w` (`w.length > 5` etc.);
`slice(0, -n)` drops the last `n` UTF-16 units. -/
def lightStem (w : String) : String :=
  if ("ing".data.isSuffixOf w.data && w.data.length > 5) then String.mk (w.data.take (w.data.length - 3))
  else if ("ed".data.isSuffixOf w.data && w.data.length > 4) then String.mk (w.data.take (w.data.length - 2))
  else if ("es".data.isSuffixOf w.data && w.data.length > 4) then String.mk (w.data.take (w.data.length - 2))
  else if ("s".data.isSuffixOf w.data && w.data.length > 3) then String.mk (w.data.take (w.data.length - 1))
  else w

/-- `tokenize` of service.js: lowercase, split on `[^a-z0-9]+`, drop empty
pieces, remove stopwords, then light-stem. -/
def tokenize (text : String) : List String :=
  (((splitTok [] (text.data.map jsToLower)).map String.mk).filter
    (fun t => !(STOP.contains t))).map lightStem

/-- A suffix-stripping rule: (suffix, length threshold on the original word). -/
def stripRules : List (String × Nat) := [("ing", 5), ("ed", 4), ("es", 4), ("s", 3)]

/-- Generic first-match-wins application of ordered suffix rules: the first
rule whose suffix matches and whose length guard holds strips its suffix;
later rules are not consulted. -/
def applyFirstRule (rules : List (String × Nat)) (w : String) : String :=
  match rules with
  | [] => w
  | (suf, k) :: rest =>
      if (suf.data.isSuffixOf w.data && w.data.length > k) then String.mk (w.data.take (w.data.length - suf.data.length))
      else applyFirstRule rest w

/-- Modelled from the spec: the suffix-stripping rules as the claim reads
them, with each length threshold applied to the *resulting stem* ("strip
trailing ing if the resulting stem length is greater than 5", etc.), for
comparison with the source's `lightStem`. -/
def specLightStem (w : String) : String :=
  if ("ing".data.isSuffixOf w.data && w.data.length - 3 > 5) then String.mk (w.data.take (w.data.length - 3))
  else if ("ed".data.isSuffixOf w.data && w.data.length - 2 > 4) then String.mk (w.data.take (w.data.length - 2))
  else if ("es".data.isSuffixOf w.data && w.data.length - 2 > 4) then String.mk (w.data.take (w.data.length - 2))
  else if ("s".data.isSuffixOf w.data && w.data.length - 1 > 3) then String.mk (w.data.take (w.data.length - 1))
  else w

/-! ### Regular-expression engine for the domain-boost rules

service.js tests fixed JS regexes (no flags) against the lowercased raw
text via `RegExp.prototype.test`, i.e. "does a match start at some
position".  The regexes use only literals, alternation, optional pieces,
character classes, `\s* \s+ .*` (stars only over single-character classes)
and the word boundary `\b`; the AST below covers exactly these.  The matcher
is a complete nondeterministic search, so `reTest` is true iff some start
position admits a match — the semantics of `.test`. -/

/-- JS `\s` (the whitespace characters relevant to this codebase). -/
def jsWs (c : Char) : Bool :=
  c = ' ' || c = '\t' || c = '\n' || c = '\r' || c = '\x0b' || c = '\x0c' || c = ' '

/-- JS `.` : any character except a line terminator. -/
def jsDot (c : Char) : Bool :=
  !(c = '\n' || c = '\r')

/-- JS word character `[A-Za-z0-9_]`, used by `\b`. -/
def jsWordChar (c : Char) : Bool :=
  c.isAlphanum || c = '_'

/-- Regex AST: literal string, one character of a class, `class*`,
`class+`, concatenation, alternation, optional piece, word boundary. -/
inductive RE where
  | lit : String → RE
  | cls : (Char → Bool) → RE
  | clsStar : (Char → Bool) → RE
  | clsPlus : (Char → Bool) → RE
  | seq : RE → RE → RE
  | alt : RE → RE → RE
  | opt : RE → RE
  | wb : RE

/-- Word-boundary test between the previously consumed character and the
next character of the remaining input (none = string edge). -/
def atBoundary (prev : Option Char) (l : List Char) : Bool :=
  let before := match prev with | none => false | some c => jsWordChar c
  let after := match l with | [] => false | c :: _ => jsWordChar c
  before != after

/-- All ways for `class*` to consume a (possibly empty) prefix of `l`:
returns each (last consumed char, remainder). -/
def starRems (p : Char → Bool) (prev : Option Char) : List Char → List (Option Char × List Char)
  | [] => [(prev, [])]
  | c :: cs => (prev, c :: cs) :: (if p c then starRems p (some c) cs else [])

/-- Nondeterministic matcher: all (last consumed char, remainder) pairs
after matching `r` at the front of `l`, where `prev` is the character just
before `l` (for `\b`). -/
def matchRE : RE → Option Char → List Char → List (Option Char × List Char)
  | .lit w, prev, l =>
      if w.data.isPrefixOf l then
        [(match w.data.getLast? with | none => prev | some c => some c, l.drop w.data.length)]
      else []
  | .cls _, _, [] => []
  | .cls p, _, c :: cs => if p c then [(some c, cs)] else []
  | .clsStar p, prev, l => starRems p prev l
  | .clsPlus _, _, [] => []
  | .clsPlus p, _, c :: cs => if p c then starRems p (some c) cs else []
  | .seq a b, prev, l => (matchRE a prev l).flatMap (fun pr => matchRE b pr.1 pr.2)
  | .alt a b, prev, l => matchRE a prev l ++ matchRE b prev l
  | .opt a, prev, l => (prev, l) :: matchRE a prev l
  | .wb, prev, l => if atBoundary prev l then [(prev, l)] else []

/-- Try to match `r` starting at the front of `l` or at any later
position (`prev` tracks the character before the current position). -/
def testFrom (r : RE) (prev : Option Char) : List Char → Bool
  | [] => !(matchRE r prev []).isEmpty
  | c :: cs => !(matchRE r prev (c :: cs)).isEmpty || testFrom r (some c) cs

/-- `RegExp.prototype.test`: does `r` match anywhere in `s`? -/
def reTest (r : RE) (s : List Char) : Bool :=
  testFrom r none s

/-! ### Domain-boost rules (service.js, lines 87-137)

Each rule's regex is transcribed structurally into the `RE` AST; the
original regex literal is quoted in the comment above each rule. -/

/-- A boost rule: pattern and diagnostic tag. -/
structure Rule where
  rx : RE
  tag : String

/-- `\s*` -/
def wsStar : RE := .clsStar jsWs

/-- `\s+` -/
def wsPlus : RE := .clsPlus jsWs

/-- `.*` -/
def dotStar : RE := .clsStar jsDot

/-- `CRITICAL_RULES` of service.js. -/
def CRITICAL_RULES : List Rule := [
  -- /boil[-\s]?water|advisory/
  ⟨.alt (.seq (.lit "boil") (.seq (.opt (.cls (fun c => c = '-' || jsWs c))) (.lit "water"))) (.lit "advisory"),
   "boil_water_advisory"⟩,
  -- /\b(e\.?\s*coli|fecal (?:coliform)?)\b/
  ⟨.seq .wb (.seq (.alt (.seq (.lit "e") (.seq (.opt (.lit ".")) (.seq wsStar (.lit "coli"))))
                        (.seq (.lit "fecal ") (.opt (.lit "coliform")))) .wb),
   "contamination"⟩,
  -- /\b(sewage (?:overflow|spill)|\bSSO\b)\b/  (note: "SSO" is uppercase in the
  -- source while the tested text has been lowercased, so that branch never fires)
  ⟨.seq .wb (.seq (.alt (.seq (.lit "sewage ") (.alt (.lit "overflow") (.lit "spill")))
                        (.seq .wb (.seq (.lit "SSO") .wb))) .wb),
   "sso"⟩,
  -- /\bforce\s+main\b/
  ⟨.seq .wb (.seq (.lit "force") (.seq wsPlus (.seq (.lit "main") .wb))), "force_main"⟩,
  -- /treatment\s+plant.*(offline|shutdown|down)/
  ⟨.seq (.lit "treatment") (.seq wsPlus (.seq (.lit "plant")
      (.seq dotStar (.alt (.lit "offline") (.alt (.lit "shutdown") (.lit "down")))))),
   "plant_offline"⟩,
  -- /pressure.*(<\s*20\s*psi|below\s*20\s*psi|under\s*20\s*psi)/
  ⟨.seq (.lit "pressure") (.seq dotStar
      (.alt (.seq (.lit "<") (.seq wsStar (.seq (.lit "20") (.seq wsStar (.lit "psi")))))
        (.alt (.seq (.lit "below") (.seq wsStar (.seq (.lit "20") (.seq wsStar (.lit "psi")))))
              (.seq (.lit "under") (.seq wsStar (.seq (.lit "20") (.seq wsStar (.lit "psi")))))))),
   "pressure_below_20psi"⟩,
  -- /\b(sinkhole|road\s+undermined)\b/
  ⟨.seq .wb (.seq (.alt (.lit "sinkhole") (.seq (.lit "road") (.seq wsPlus (.lit "undermined")))) .wb),
   "sinkhole"⟩,
  -- /\b(24|30|36|42)(?:-? ?inch|["])?\s*(?:transmission\s+)?main.*(break|rupture)/
  ⟨.seq .wb (.seq (.alt (.lit "24") (.alt (.lit "30") (.alt (.lit "36") (.lit "42"))))
      (.seq (.opt (.alt (.seq (.opt (.lit "-")) (.seq (.opt (.lit " ")) (.lit "inch"))) (.lit "\"")))
        (.seq wsStar (.seq (.opt (.seq (.lit "transmission") wsPlus))
          (.seq (.lit "main") (.seq dotStar (.alt (.lit "break") (.lit "rupture")))))))),
   "transmission_main_break"⟩,
  -- /no\s+water.*(hospital|school|fire\s+station)/
  ⟨.seq (.lit "no") (.seq wsPlus (.seq (.lit "water") (.seq dotStar
      (.alt (.lit "hospital") (.alt (.lit "school") (.seq (.lit "fire") (.seq wsPlus (.lit "station")))))))),
   "critical_facility_outage"⟩,
  -- /chlorine\s+(leak|release|spill)/
  ⟨.seq (.lit "chlorine") (.seq wsPlus (.alt (.lit "leak") (.alt (.lit "release") (.lit "spill")))),
   "chlorine_release"⟩]

/-- `HIGH_RULES` of service.js. -/
def HIGH_RULES : List Rule := [
  -- /water\s+main\s+break|major\s+main\s+break/
  ⟨.alt (.seq (.lit "water") (.seq wsPlus (.seq (.lit "main") (.seq wsPlus (.lit "break")))))
        (.seq (.lit "major") (.seq wsPlus (.seq (.lit "main") (.seq wsPlus (.lit "break"))))),
   "water_main_break"⟩,
  -- /\b(major|large)\s+leak\b/
  ⟨.seq .wb (.seq (.alt (.lit "major") (.lit "large")) (.seq wsPlus (.seq (.lit "leak") .wb))),
   "large_leak"⟩,
  -- /low\s+pressure.*(area|zone|widespread)/
  ⟨.seq (.lit "low") (.seq wsPlus (.seq (.lit "pressure")
      (.seq dotStar (.alt (.lit "area") (.alt (.lit "zone") (.lit "widespread")))))),
   "widespread_low_pressure"⟩,
  -- /pump\s+station\s+(failure|alarm)/
  ⟨.seq (.lit "pump") (.seq wsPlus (.seq (.lit "station") (.seq wsPlus (.alt (.lit "failure") (.lit "alarm"))))),
   "pump_station"⟩,
  -- /backflow\s+(event|incident)|cross[-\s]?connection/
  ⟨.alt (.seq (.lit "backflow") (.seq wsPlus (.alt (.lit "event") (.lit "incident"))))
        (.seq (.lit "cross") (.seq (.opt (.cls (fun c => c = '-' || jsWs c))) (.lit "connection"))),
   "backflow_event"⟩,
  -- /valve\s+(failure|stuck\s+(closed|open))/
  ⟨.seq (.lit "valve") (.seq wsPlus (.alt (.lit "failure")
      (.seq (.lit "stuck") (.seq wsPlus (.alt (.lit "closed") (.lit "open")))))),
   "valve_failure"⟩,
  -- /road\s+(closure|flooded)/
  ⟨.seq (.lit "road") (.seq wsPlus (.alt (.lit "closure") (.lit "flooded"))), "road_impact"⟩]

/-! ### Trainer-side text normalization (train.js, lines 76-82) -/

/-- ASCII model of the character class kept by `normalize`'s regex
`/[^\p{L}\p{N}\s]/gu`: letters, digits and whitespace survive; everything
else is replaced by a space. -/
def normKeep (c : Char) : Bool :=
  c.isAlpha || c.isDigit || c.isWhitespace

/-- Collapse whitespace runs to single spaces (`.replace(/\s+/g, " ")`). -/
def collapseWs : Bool → List Char → List Char
  | _, [] => []
  | prevWs, c :: cs =>
      if c.isWhitespace then
        if prevWs then collapseWs true cs else ' ' :: collapseWs true cs
      else c :: collapseWs false cs

/-- `.trim()`: drop leading and trailing whitespace. -/
def trimChars (cs : List Char) : List Char :=
  ((cs.dropWhile Char.isWhitespace).reverse.dropWhile Char.isWhitespace).reverse

/-- `normalize` of train.js: lowercase, replace non-(letter/digit/space) by a
space, collapse whitespace, trim.  This is the *only* text transformation the
trainer applies in this repository before handing the string to the external
`natural` library. -/
def normalize (s : String) : String :=
  String.mk (trimChars (collapseWs false ((s.data.map jsToLower).map
    (fun c => if normKeep c then c else ' '))))

/-! ### The model artifact and Naive Bayes scoring (service.js, lines 15-62 and 139-193) -/

/-- The in-memory model of service.js:
`{ features, classFeatures, classTotals, totalExamples, smoothing }`.
JSON objects become association lists in key order; counts are naturals;
the smoothing constant is a JS number, modelled as a real. -/
structure Model where
  features : List (String × Nat)
  classFeatures : List (String × List (Nat × Nat))
  classTotals : List (String × Nat)
  totalExamples : Nat
  smoothing : ℝ

/-- Well-formedness facts true of every JS object: keys are unique. -/
def Model.WF (M : Model) : Prop :=
  (M.features.map Prod.fst).Nodup ∧ (M.classTotals.map Prod.fst).Nodup

/-- `Object.keys(classTotals)` — the candidate class labels, in key order. -/
def labelsOf (M : Model) : List String :=
  M.classTotals.map Prod.fst

/-- `Object.keys(features).length` — the vocabulary size. -/
def vocabSize (M : Model) : Nat :=
  M.features.length

/-- `computeClassWordTotals` (service.js, lines 140-149): total token count
of one class (sum of its per-token counts; 0 when the class is absent). -/
def classWordTotal (M : Model) (label : String) : Nat :=
  ((((M.classFeatures.lookup label).getD []).map Prod.snd)).sum

/-- `cf[idx] ?? 0` for `idx = features[tok]`: the stored count of `tok` in
class `label`; 0 when the token or the count is absent. -/
def tokCount (M : Model) (label tok : String) : Nat :=
  match M.features.lookup tok with
  | none => 0
  | some idx => (((M.classFeatures.lookup label).getD []).lookup idx).getD 0

/-- The raw (pre-boost) log-score of one class (service.js, lines 160-178):
start from the Laplace-smoothed log prior, then for each token found in the
vocabulary add `log(count + smoothing) - log(denom)`; tokens absent from
`features` are skipped by the `continue`. -/
noncomputable def rawScore (M : Model) (tokens : List String) (label : String) : ℝ :=
  let priorNum : ℝ := ((M.classTotals.lookup label).getD 0 : ℕ) + 1
  let priorDen : ℝ := (M.totalExamples : ℝ) + (labelsOf M).length
  let denom : ℝ := (classWordTotal M label : ℝ) + M.smoothing * (vocabSize M : ℝ)
  tokens.foldl
    (fun s tok =>
      match M.features.lookup tok with
      | none => s
      | some _ => s + (Real.log ((tokCount M label tok : ℝ) + M.smoothing) - Real.log denom))
    (Real.log priorNum - Real.log priorDen)

/-- Default boost constants (service.js, lines 89-90; overridable through
environment variables, so the scoring functions take them as parameters). -/
def BOOST_CRITICAL : ℝ := 2

/-- Default `ML_BOOST_HIGH`. -/
def BOOST_HIGH : ℝ := 1

/-- `if (has(k)) logScores[k] += delta` — add `delta` to the entry with key
`k`, if present (JS mutation of one object property, order preserved). -/
def bump (m : List (String × ℝ)) (k : String) (delta : ℝ) : List (String × ℝ) :=
  if m.any (fun p => p.1 = k) then m.map (fun p => if p.1 = k then (p.1, p.2 + delta) else p) else m

/-- The critical rules matching a lowercased text, in list order. -/
def critHits (text : List Char) : List Rule :=
  CRITICAL_RULES.filter (fun r => reTest r.rx text)

/-- The high rules matching a lowercased text, in list order. -/
def highHits (text : List Char) : List Rule :=
  HIGH_RULES.filter (fun r => reTest r.rx text)

/-- `applyDomainBoost` (service.js, lines 117-137): lowercase the raw text,
add `bCrit` to the CRITICAL score once per matching critical rule and
`bHigh` to the HIGH score once per matching high rule (only when the class
key exists), and collect each matched rule's tag — critical tags first,
then high tags, each in rule order. -/
def applyDomainBoost (bCrit bHigh : ℝ) (rawText : String) (logScores : List (String × ℝ)) :
    List (String × ℝ) × List String :=
  let text := rawText.data.map jsToLower
  let s1 := (critHits text).foldl (fun m _ => bump m "CRITICAL" bCrit) logScores
  let s2 := (highHits text).foldl (fun m _ => bump m "HIGH" bHigh) s1
  (s2, (critHits text).map Rule.tag ++ (highHits text).map Rule.tag)

/-- `Math.max(...)` over a score list (the empty case is unreachable:
`classifyTokens` throws before scoring when there are no labels). -/
def listMax : List ℝ → ℝ
  | [] => 0
  | v :: vs => vs.foldl max v

/-- The softmax block of `classifyTokens` (service.js, lines 183-187):
subtract the max log-score, exponentiate, divide by the sum (`|| 1` guards a
zero sum). -/
noncomputable def softmaxProbs (scores : List (String × ℝ)) : List (String × ℝ) :=
  let mx := listMax (scores.map Prod.snd)
  let exps := scores.map (fun p => (p.1, Real.exp (p.2 - mx)))
  let zsum := (exps.map Prod.snd).sum
  let Z := if zsum = 0 then 1 else zsum
  exps.map (fun p => (p.1, p.2 / Z))

/-- `probs[l] ?? 0` — object lookup used for the argmax and the returned
confidence. -/
noncomputable def probD (probs : List (String × ℝ)) (l : String) : ℝ :=
  (probs.lookup l).getD 0

/-- The boosted log-score list of `classifyTokens`. -/
noncomputable def boostedScores (bCrit bHigh : ℝ) (M : Model) (tokens : List String) (rawText : String) :
    List (String × ℝ) :=
  (applyDomainBoost bCrit bHigh rawText ((labelsOf M).map (fun l => (l, rawScore M tokens l)))).1

/-- The matched-rule tags of `classifyTokens` (the second component of
`applyDomainBoost`, which does not depend on the scores). -/
def boostTags (rawText : String) : List String :=
  (critHits (rawText.data.map jsToLower)).map Rule.tag ++ (highHits (rawText.data.map jsToLower)).map Rule.tag

/-- The probability distribution computed by `classifyTokens`. -/
noncomputable def probsOf (bCrit bHigh : ℝ) (M : Model) (tokens : List String) (rawText : String) :
    List (String × ℝ) :=
  softmaxProbs (boostedScores bCrit bHigh M tokens rawText)

/-- The argmax loop of `classifyTokens` (lines 189-190): start from
`labels[0]`, replace on strictly greater probability. -/
noncomputable def bestLabel (bCrit bHigh : ℝ) (M : Model) (tokens : List String) (rawText : String) : String :=
  let probs := probsOf bCrit bHigh M tokens rawText
  (labelsOf M).foldl (fun b l => if probD probs l > probD probs b then l else b) ((labelsOf M).headD "")

/-- The error taxonomy of the classifier: `throw new Error("Not Trained")`. -/
inductive MLError where
  | notTrained
deriving DecidableEq

/-- The value returned by `classifyTokens`. -/
structure CTOut where
  label : String
  confidence : ℝ
  tags : List String

/-- `classifyTokens` (service.js, lines 151-193): throw when the model has
no classes, otherwise score, boost, softmax and pick the argmax. -/
noncomputable def classifyTokens (bCrit bHigh : ℝ) (M : Model) (tokens : List String) (rawText : String) :
    Except MLError CTOut :=
  if (labelsOf M).isEmpty then .error .notTrained
  else
    let best := bestLabel bCrit bHigh M tokens rawText
    .ok ⟨best, probD (probsOf bCrit bHigh M tokens rawText) best, boostTags rawText⟩

/-! ### Lazy model loading (service.js, lines 10-62) -/

/-- The five fields read out of a parsed artifact (either accepted shape
carries them; `smoothing` may be absent, `?? 1`). -/
structure RawClassifier where
  features : List (String × Nat)
  classFeatures : List (String × List (Nat × Nat))
  classTotals : List (String × Nat)
  totalExamples : Nat
  smoothing : Option ℝ

/-- A successfully JSON-parsed artifact: the nested shape
`{ classifier: { features, classifier: { classFeatures, ... } } }`, the flat
shape `{ classifier: { features, classFeatures, ... } }` (or the same
without the root wrapper), or a parse that fits neither shape. -/
inductive ParsedArtifact where
  | nested : RawClassifier → ParsedArtifact
  | flat : RawClassifier → ParsedArtifact
  | invalid : ParsedArtifact

/-- The shape sniffing of `loadModelIfNeeded` (lines 37-57): both accepted
shapes produce the same model, with `smoothing ?? 1`; anything else throws. -/
def decodeArtifact : ParsedArtifact → Option Model
  | .nested c => some ⟨c.features, c.classFeatures, c.classTotals, c.totalExamples, c.smoothing.getD 1⟩
  | .flat c => some ⟨c.features, c.classFeatures, c.classTotals, c.totalExamples, c.smoothing.getD 1⟩
  | .invalid => none

/-- The artifact obtained from the model paths: the first path whose read
and `JSON.parse` succeed (the loop breaks there), run through the shape
check.  `none` means every read failed, or the first parsed artifact had an
unrecognized shape. -/
def firstDecoded (paths : List (Option ParsedArtifact)) : Option Model :=
  (paths.findSome? id).bind decodeArtifact

/-- `loadModelIfNeeded`: return the cached model if present; otherwise read
the paths in order and either cache the decoded model or throw
`Not Trained`, leaving the cache empty.  Returns (new cache, outcome). -/
def loadModelIfNeeded (cached : Option Model) (paths : List (Option ParsedArtifact)) :
    Option Model × Except MLError Model :=
  match cached with
  | some m => (some m, .ok m)
  | none =>
    match firstDecoded paths with
    | none => (none, .error .notTrained)
    | some m => (some m, .ok m)

/-! ### Public API (service.js, lines 196-227) -/

/-- The value returned by `smartClassify`; `inferredType` is the
representative matched-rule tag (`undefined`, i.e. `none`, when no rule
fired or on the empty-input path). -/
structure SCOut where
  priority : String
  confidence : ℝ
  inferredType : Option String

/-- `smartClassify`: load the model (before anything else), build the raw
text and the concatenated token list, short-circuit to the MEDIUM /
confidence-0 default on an empty token list, otherwise classify and expose
the first matched tag.  Returns (new cache, outcome). -/
noncomputable def smartClassify (bCrit bHigh : ℝ) (cached : Option Model)
    (paths : List (Option ParsedArtifact)) (title description : String) :
    Option Model × Except MLError SCOut :=
  match loadModelIfNeeded cached paths with
  | (st, .error e) => (st, .error e)
  | (st, .ok M) =>
    let rawText := (title ++ " " ++ description).trim
    let toks := tokenize title ++ tokenize description
    if toks.isEmpty then (st, .ok ⟨"MEDIUM", 0, none⟩)
    else
      match classifyTokens bCrit bHigh M toks rawText with
      | .error e => (st, .error e)
      | .ok r => (st, .ok ⟨r.label, r.confidence, r.tags.head?⟩)

/-- The HTTP responses `classifyHandler` can produce: a JSON success body,
the `{ ok:false, reason:"not_trained" }` sentinel (HTTP 200), or the 500
`internal_error` body for any other exception. -/
inductive ApiResponse where
  | okRes : SCOut → ApiResponse
  | notTrainedRes : ApiResponse
  | internalErrorRes : ApiResponse

/-- `classifyHandler` (service.js, lines 212-227): every `Not Trained`
throw is caught and surfaced as the `not_trained` sentinel; it never
escapes to the caller. -/
noncomputable def classifyHandler (bCrit bHigh : ℝ) (cached : Option Model)
    (paths : List (Option ParsedArtifact)) (title description : String) :
    Option Model × ApiResponse :=
  match smartClassify bCrit bHigh cached paths title description with
  | (st, .ok r) => (st, .okRes r)
  | (st, .error .notTrained) => (st, .notTrainedRes)

/-! ### Concrete models used by witnesses and counterexamples -/

/-- A small well-formed model used to instantiate universally quantified
theorems: two classes, two vocabulary entries, smoothing 1. -/
def CMW : Model :=
  ⟨[("pipe", 0), ("leak", 1)],
   [("LOW", [(0, 2)]), ("HIGH", [(1, 3)])],
   [("LOW", 2), ("HIGH", 2)], 4, 1⟩

/-- A model exhibiting the failure of end-to-end boost monotonicity: the
vocabulary holds the four tokens of the inserted phrase (plus padding up to
25 entries), the LOW class has seen each of those tokens 6 times, and the
CRITICAL class has seen nothing. -/
def CM3 : Model :=
  ⟨[("boil", 0), ("water", 1), ("advisory", 2), ("issu", 3),
    ("d4", 4), ("d5", 5), ("d6", 6), ("d7", 7), ("d8", 8), ("d9", 9),
    ("d10", 10), ("d11", 11), ("d12", 12), ("d13", 13), ("d14", 14),
    ("d15", 15), ("d16", 16), ("d17", 17), ("d18", 18), ("d19", 19),
    ("d20", 20), ("d21", 21), ("d22", 22), ("d23", 23), ("d24", 24)],
   [("CRITICAL", []), ("LOW", [(0, 6), (1, 6), (2, 6), (3, 6)])],
   [("CRITICAL", 1), ("LOW", 1)], 2, 1⟩

/-- The `RawClassifier` payload used by the recovery witness. -/
def RCW : RawClassifier :=
  ⟨CMW.features, CMW.classFeatures, CMW.classTotals, CMW.totalExamples, some 1⟩

/-! ## Helper lemmas -/

theorem lookup_map_val (f : ℝ → ℝ) (k : String) :
    ∀ s : List (String × ℝ), (s.map (fun p => (p.1, f p.2))).lookup k = (s.lookup k).map f := by
  intro s
  induction s with
  | nil => rfl
  | cons p rest ih =>
    obtain ⟨a, v⟩ := p
    by_cases h : k = a
    · simp [List.lookup, h]
    · simp [List.lookup, beq_false_of_ne h, ih]

theorem lookup_map_bump (k : String) (d : ℝ) :
    ∀ s : List (String × ℝ),
      (s.map (fun p => if p.1 = k then (p.1, p.2 + d) else p)).lookup k = (s.lookup k).map (· + d) := by
  intro s
  induction s with
  | nil => rfl
  | cons p rest ih =>
    obtain ⟨a, v⟩ := p
    simp only [List.map_cons]
    by_cases h : a = k
    · rw [show (if (a, v).1 = k then ((a, v).1, (a, v).2 + d) else (a, v)) = (a, v + d) from if_pos h]
      subst h
      simp [List.lookup]
    · rw [show (if (a, v).1 = k then ((a, v).1, (a, v).2 + d) else (a, v)) = (a, v) from if_neg h]
      simp [List.lookup, beq_false_of_ne (fun hq : k = a => h hq.symm), ih]

theorem lookup_map_bump_ne (k q : String) (d : ℝ) (hne : q ≠ k) :
    ∀ s : List (String × ℝ),
      (s.map (fun p => if p.1 = k then (p.1, p.2 + d) else p)).lookup q = s.lookup q := by
  intro s
  induction s with
  | nil => rfl
  | cons p rest ih =>
    obtain ⟨a, v⟩ := p
    simp only [List.map_cons]
    by_cases h : a = k
    · rw [show (if (a, v).1 = k then ((a, v).1, (a, v).2 + d) else (a, v)) = (a, v + d) from if_pos h]
      have hq : (q == a) = false := beq_false_of_ne (fun hqa => hne (hqa ▸ h))
      simp [List.lookup, hq, ih]
    · rw [show (if (a, v).1 = k then ((a, v).1, (a, v).2 + d) else (a, v)) = (a, v) from if_neg h]
      by_cases h3 : q = a
      · simp [List.lookup, h3]
      · simp [List.lookup, beq_false_of_ne h3, ih]

theorem lookup_none_of_no_key (k : String) :
    ∀ s : List (String × ℝ), (s.any (fun p => p.1 = k)) = false → s.lookup k = none := by
  intro s
  induction s with
  | nil => intro _; rfl
  | cons p rest ih =>
    obtain ⟨a, v⟩ := p
    intro h
    rw [List.any_cons, Bool.or_eq_false_iff] at h
    have h1 : ¬(a = k) := by
      have := h.1
      simpa using this
    simp [List.lookup, beq_false_of_ne (fun hk : k = a => h1 hk.symm), ih h.2]

theorem bump_lookup (s : List (String × ℝ)) (k : String) (d : ℝ) :
    (bump s k d).lookup k = (s.lookup k).map (· + d) := by
  unfold bump
  cases h : s.any (fun p => p.1 = k) with
  | true => simp [h, lookup_map_bump]
  | false => simp [h, lookup_none_of_no_key k s h]

theorem bump_lookup_ne (s : List (String × ℝ)) (k q : String) (d : ℝ) (hne : q ≠ k) :
    (bump s k d).lookup q = s.lookup q := by
  unfold bump
  by_cases h : s.any (fun p => p.1 = k) = true
  · simp [h, lookup_map_bump_ne k q d hne]
  · simp [h]

theorem bump_keys (s : List (String × ℝ)) (k : String) (d : ℝ) :
    (bump s k d).map Prod.fst = s.map Prod.fst := by
  unfold bump
  by_cases h : s.any (fun p => p.1 = k) = true
  · simp only [h, if_true, List.map_map]
    refine List.map_congr_left (fun p _ => ?_)
    by_cases hp : p.1 = k <;> simp [hp]
  · simp [h]

theorem foldl_bump_lookup (k : String) (d : ℝ) :
    ∀ (hits : List Rule) (s : List (String × ℝ)),
      (hits.foldl (fun m _ => bump m k d) s).lookup k =
        (s.lookup k).map (· + (hits.length : ℝ) * d) := by
  intro hits
  induction hits with
  | nil =>
    intro s
    cases h : s.lookup k <;> simp [h]
  | cons r rest ih =>
    intro s
    rw [List.foldl_cons, ih, bump_lookup, Option.map_map]
    congr 1
    funext x
    simp only [Function.comp_apply, List.length_cons]
    push_cast
    ring

theorem foldl_bump_lookup_ne (k q : String) (d : ℝ) (hne : q ≠ k) :
    ∀ (hits : List Rule) (s : List (String × ℝ)),
      (hits.foldl (fun m _ => bump m k d) s).lookup q = s.lookup q := by
  intro hits
  induction hits with
  | nil => intro s; rfl
  | cons r rest ih =>
    intro s
    rw [List.foldl_cons, ih, bump_lookup_ne _ _ _ _ hne]

theorem foldl_bump_keys (k : String) (d : ℝ) :
    ∀ (hits : List Rule) (s : List (String × ℝ)),
      (hits.foldl (fun m _ => bump m k d) s).map Prod.fst = s.map Prod.fst := by
  intro hits
  induction hits with
  | nil => intro s; rfl
  | cons r rest ih =>
    intro s
    rw [List.foldl_cons, ih, bump_keys]

theorem adb_lookup_CRITICAL (bCrit bHigh : ℝ) (rawText : String) (s : List (String × ℝ)) :
    (applyDomainBoost bCrit bHigh rawText s).1.lookup "CRITICAL" =
      (s.lookup "CRITICAL").map
        (· + ((critHits (rawText.data.map jsToLower)).length : ℝ) * bCrit) := by
  unfold applyDomainBoost
  rw [foldl_bump_lookup_ne "HIGH" "CRITICAL" bHigh (by decide), foldl_bump_lookup]

theorem adb_lookup_HIGH (bCrit bHigh : ℝ) (rawText : String) (s : List (String × ℝ)) :
    (applyDomainBoost bCrit bHigh rawText s).1.lookup "HIGH" =
      (s.lookup "HIGH").map
        (· + ((highHits (rawText.data.map jsToLower)).length : ℝ) * bHigh) := by
  unfold applyDomainBoost
  rw [foldl_bump_lookup, foldl_bump_lookup_ne "CRITICAL" "HIGH" bCrit (by decide)]

theorem adb_lookup_other (bCrit bHigh : ℝ) (rawText : String) (s : List (String × ℝ))
    (k : String) (h1 : k ≠ "CRITICAL") (h2 : k ≠ "HIGH") :
    (applyDomainBoost bCrit bHigh rawText s).1.lookup k = s.lookup k := by
  unfold applyDomainBoost
  rw [foldl_bump_lookup_ne "HIGH" k bHigh h2, foldl_bump_lookup_ne "CRITICAL" k bCrit h1]

theorem adb_keys (bCrit bHigh : ℝ) (rawText : String) (s : List (String × ℝ)) :
    (applyDomainBoost bCrit bHigh rawText s).1.map Prod.fst = s.map Prod.fst := by
  unfold applyDomainBoost
  rw [foldl_bump_keys, foldl_bump_keys]

theorem adb_tags (bCrit bHigh : ℝ) (rawText : String) (s : List (String × ℝ)) :
    (applyDomainBoost bCrit bHigh rawText s).2 =
      (critHits (rawText.data.map jsToLower)).map Rule.tag ++
        (highHits (rawText.data.map jsToLower)).map Rule.tag := rfl

theorem lookup_mem {s : List (String × ℝ)} {k : String} {v : ℝ}
    (h : s.lookup k = some v) : (k, v) ∈ s := by
  induction s with
  | nil => simp [List.lookup] at h
  | cons p rest ih =>
    obtain ⟨a, w⟩ := p
    by_cases hk : k = a
    · subst hk
      simp [List.lookup] at h
      simp [h]
    · rw [List.lookup, beq_false_of_ne hk] at h
      exact List.mem_cons_of_mem _ (ih h)

theorem lookup_of_mem_nodup {s : List (String × ℝ)} {k : String} {v : ℝ}
    (hnd : (s.map Prod.fst).Nodup) (h : (k, v) ∈ s) : s.lookup k = some v := by
  induction s with
  | nil => simp at h
  | cons p rest ih =>
    obtain ⟨a, w⟩ := p
    simp only [List.map_cons, List.nodup_cons] at hnd
    rcases List.mem_cons.mp h with h1 | h1
    · injection h1 with hk hv
      subst hk
      subst hv
      simp [List.lookup]
    · have hka : k ≠ a := by
        intro hk
        exact hnd.1 (by
          subst hk
          exact List.mem_map.mpr ⟨(k, v), h1, rfl⟩)
      rw [List.lookup, beq_false_of_ne hka]
      exact ih hnd.2 h1

theorem softmax_keys (s : List (String × ℝ)) :
    (softmaxProbs s).map Prod.fst = s.map Prod.fst := by
  simp [softmaxProbs, List.map_map]

theorem softmax_zsum_pos (s : List (String × ℝ)) (hne : s ≠ []) (m : ℝ) :
    0 < (s.map (fun p => Real.exp (p.2 - m))).sum := by
  refine List.sum_pos _ ?_ ?_
  · intro x hx
    rcases List.mem_map.mp hx with ⟨p, _, rfl⟩
    exact Real.exp_pos _
  · simpa using hne

theorem exp_sum_pos (s : List (String × ℝ)) (hne : s ≠ []) :
    0 < (s.map (fun p => Real.exp p.2)).sum := by
  refine List.sum_pos _ ?_ ?_
  · intro x hx
    rcases List.mem_map.mp hx with ⟨p, _, rfl⟩
    exact Real.exp_pos _
  · simpa using hne

theorem lookup_two_maps (k : String) (m Z : ℝ) :
    ∀ s : List (String × ℝ),
      ((s.map (fun p => (p.1, Real.exp (p.2 - m)))).map (fun p => (p.1, p.2 / Z))).lookup k =
        (s.lookup k).map (fun x => Real.exp (x - m) / Z) := by
  intro s
  induction s with
  | nil => rfl
  | cons p rest ih =>
    obtain ⟨a, w⟩ := p
    by_cases h : k = a
    · simp [List.lookup, h]
    · simp only [List.map_cons, List.lookup, beq_false_of_ne h]
      exact ih

theorem probD_softmax_eq (s : List (String × ℝ)) (k : String) (v : ℝ)
    (hne : s ≠ []) (hk : s.lookup k = some v) :
    probD (softmaxProbs s) k = Real.exp v / (s.map (fun p => Real.exp p.2)).sum := by
  have hsnd :
      ((s.map (fun p => (p.1, Real.exp (p.2 - listMax (s.map Prod.snd))))).map Prod.snd) =
        s.map (fun p => Real.exp (p.2 - listMax (s.map Prod.snd))) := by
    rw [List.map_map]
    rfl
  have hz := softmax_zsum_pos s hne (listMax (s.map Prod.snd))
  simp only [softmaxProbs, probD]
  rw [hsnd, if_neg (ne_of_gt hz), lookup_two_maps, hk]
  show Real.exp (v - listMax (s.map Prod.snd)) /
      (s.map (fun p => Real.exp (p.2 - listMax (s.map Prod.snd)))).sum =
    Real.exp v / (s.map (fun p => Real.exp p.2)).sum
  have hsum :
      (s.map (fun p => Real.exp (p.2 - listMax (s.map Prod.snd)))).sum =
        (s.map (fun p => Real.exp p.2)).sum * (Real.exp (listMax (s.map Prod.snd)))⁻¹ := by
    rw [← List.sum_map_mul_right]
    refine congrArg List.sum (List.map_congr_left (fun p _ => ?_))
    rw [Real.exp_sub, div_eq_mul_inv]
  have hm : Real.exp (listMax (s.map Prod.snd)) ≠ 0 := ne_of_gt (Real.exp_pos _)
  have hT : (s.map (fun p => Real.exp p.2)).sum ≠ 0 := ne_of_gt (exp_sum_pos s hne)
  rw [hsum, Real.exp_sub]
  field_simp

theorem softmax_sum_one (s : List (String × ℝ)) (hne : s ≠ []) :
    ((softmaxProbs s).map Prod.snd).sum = 1 := by
  have hz := softmax_zsum_pos s hne (listMax (s.map Prod.snd))
  have hsnd :
      ∀ Z : ℝ, (((s.map (fun p => (p.1, Real.exp (p.2 - listMax (s.map Prod.snd))))).map
          (fun p => (p.1, p.2 / Z))).map Prod.snd) =
        s.map (fun p => Real.exp (p.2 - listMax (s.map Prod.snd)) * Z⁻¹) := by
    intro Z
    rw [List.map_map, List.map_map]
    refine List.map_congr_left (fun p _ => ?_)
    simp [div_eq_mul_inv]
  have hsnd0 :
      ((s.map (fun p => (p.1, Real.exp (p.2 - listMax (s.map Prod.snd))))).map Prod.snd) =
        s.map (fun p => Real.exp (p.2 - listMax (s.map Prod.snd))) := by
    rw [List.map_map]
    rfl
  simp only [softmaxProbs]
  rw [hsnd0, if_neg (ne_of_gt hz), hsnd, List.sum_map_mul_right,
    mul_inv_cancel₀ (ne_of_gt hz)]

theorem softmax_value_nonneg (s : List (String × ℝ)) :
    ∀ p ∈ softmaxProbs s, 0 ≤ p.2 := by
  intro p hp
  have hne : s ≠ [] := by
    intro h
    subst h
    simp [softmaxProbs] at hp
  have hz := softmax_zsum_pos s hne (listMax (s.map Prod.snd))
  have hsnd0 :
      ((s.map (fun p => (p.1, Real.exp (p.2 - listMax (s.map Prod.snd))))).map Prod.snd) =
        s.map (fun p => Real.exp (p.2 - listMax (s.map Prod.snd))) := by
    rw [List.map_map]
    rfl
  simp only [softmaxProbs] at hp
  rw [hsnd0, if_neg (ne_of_gt hz)] at hp
  rcases List.mem_map.mp hp with ⟨q, hq, rfl⟩
  rcases List.mem_map.mp hq with ⟨r, _, rfl⟩
  positivity

theorem probD_nonneg (s : List (String × ℝ)) (k : String) :
    0 ≤ probD (softmaxProbs s) k := by
  unfold probD
  cases hl : (softmaxProbs s).lookup k with
  | none => simp
  | some v =>
    simp only [Option.getD_some]
    exact softmax_value_nonneg s _ (lookup_mem hl)

theorem argmax_foldl_mem (f : String → ℝ) :
    ∀ (ls : List String) (b : String),
      (ls.foldl (fun b l => if f l > f b then l else b) b) = b ∨
        (ls.foldl (fun b l => if f l > f b then l else b) b) ∈ ls := by
  intro ls
  induction ls with
  | nil => intro b; exact Or.inl rfl
  | cons a rest ih =>
    intro b
    rw [List.foldl_cons]
    rcases ih (if f a > f b then a else b) with h | h
    · rw [h]
      by_cases hc : f a > f b
      · rw [if_pos hc]
        exact Or.inr (List.mem_cons_self a rest)
      · rw [if_neg hc]
        exact Or.inl rfl
    · exact Or.inr (List.mem_cons_of_mem a h)

theorem argmax_foldl_ge_init (f : String → ℝ) :
    ∀ (ls : List String) (b : String),
      f b ≤ f (ls.foldl (fun b l => if f l > f b then l else b) b) := by
  intro ls
  induction ls with
  | nil => intro b; exact le_refl _
  | cons a rest ih =>
    intro b
    rw [List.foldl_cons]
    refine le_trans ?_ (ih (if f a > f b then a else b))
    by_cases hc : f a > f b
    · rw [if_pos hc]
      exact le_of_lt hc
    · rw [if_neg hc]

theorem argmax_foldl_ge (f : String → ℝ) :
    ∀ (ls : List String) (b : String) (l : String), l ∈ ls →
      f l ≤ f (ls.foldl (fun b l => if f l > f b then l else b) b) := by
  intro ls
  induction ls with
  | nil => intro b l hl; simp at hl
  | cons a rest ih =>
    intro b l hl
    rw [List.foldl_cons]
    rcases List.mem_cons.mp hl with h | h
    · subst h
      refine le_trans ?_ (argmax_foldl_ge_init f rest (if f l > f b then l else b))
      by_cases hc : f l > f b
      · rw [if_pos hc]
      · rw [if_neg hc]
        exact le_of_not_lt hc
    · exact ih (if f a > f b then a else b) l h

theorem boosted_keys (bCrit bHigh : ℝ) (M : Model) (tokens : List String) (rawText : String) :
    (boostedScores bCrit bHigh M tokens rawText).map Prod.fst = labelsOf M := by
  unfold boostedScores
  rw [adb_keys, List.map_map]
  exact List.map_id _

/-! ## Claim theorems -/

/-- C4: for every input and every loaded model with a non-empty class set,
the softmax over the boosted log-scores is a probability distribution
summing to 1, the returned confidence lies in [0, 1], and the confidence is
the maximum probability of that distribution — the probability of the
returned priority class. -/
theorem C4_softmax_distribution (bCrit bHigh : ℝ) (M : Model) (tokens : List String)
    (rawText : String) (h1 : labelsOf M ≠ []) (h2 : (labelsOf M).Nodup) :
    (((probsOf bCrit bHigh M tokens rawText).map Prod.snd).sum = 1) ∧
    0 ≤ probD (probsOf bCrit bHigh M tokens rawText) (bestLabel bCrit bHigh M tokens rawText) ∧
    probD (probsOf bCrit bHigh M tokens rawText) (bestLabel bCrit bHigh M tokens rawText) ≤ 1 ∧
    (∀ p ∈ probsOf bCrit bHigh M tokens rawText,
      p.2 ≤ probD (probsOf bCrit bHigh M tokens rawText) (bestLabel bCrit bHigh M tokens rawText)) ∧
    classifyTokens bCrit bHigh M tokens rawText =
      .ok ⟨bestLabel bCrit bHigh M tokens rawText,
        probD (probsOf bCrit bHigh M tokens rawText) (bestLabel bCrit bHigh M tokens rawText),
        boostTags rawText⟩ := by
  have hkeys := boosted_keys bCrit bHigh M tokens rawText
  have hbne : boostedScores bCrit bHigh M tokens rawText ≠ [] := by
    intro h
    apply h1
    rw [← hkeys, h]
    rfl
  have hsum1 : ((probsOf bCrit bHigh M tokens rawText).map Prod.snd).sum = 1 :=
    softmax_sum_one _ hbne
  have hprobkeys : (probsOf bCrit bHigh M tokens rawText).map Prod.fst = labelsOf M := by
    rw [show probsOf bCrit bHigh M tokens rawText =
      softmaxProbs (boostedScores bCrit bHigh M tokens rawText) from rfl, softmax_keys, hkeys]
  have hmax : ∀ p ∈ probsOf bCrit bHigh M tokens rawText,
      p.2 ≤ probD (probsOf bCrit bHigh M tokens rawText)
        (bestLabel bCrit bHigh M tokens rawText) := by
    intro p hp
    obtain ⟨a, b⟩ := p
    have hk : a ∈ labelsOf M := by
      rw [← hprobkeys]
      exact List.mem_map.mpr ⟨(a, b), hp, rfl⟩
    have hval : probD (probsOf bCrit bHigh M tokens rawText) a = b := by
      unfold probD
      rw [lookup_of_mem_nodup (by rw [hprobkeys]; exact h2) hp]
      rfl
    show b ≤ _
    rw [← hval]
    exact argmax_foldl_ge _ (labelsOf M) ((labelsOf M).headD "") a hk
  have hconf0 : 0 ≤ probD (probsOf bCrit bHigh M tokens rawText)
      (bestLabel bCrit bHigh M tokens rawText) := probD_nonneg _ _
  have hconf1 : probD (probsOf bCrit bHigh M tokens rawText)
      (bestLabel bCrit bHigh M tokens rawText) ≤ 1 := by
    unfold probD
    cases hl : (probsOf bCrit bHigh M tokens rawText).lookup
        (bestLabel bCrit bHigh M tokens rawText) with
    | none => simp
    | some v =>
      simp only [Option.getD_some]
      have hv : v ∈ (probsOf bCrit bHigh M tokens rawText).map Prod.snd := by
        exact List.mem_map.mpr ⟨_, lookup_mem hl, rfl⟩
      calc v ≤ ((probsOf bCrit bHigh M tokens rawText).map Prod.snd).sum :=
            List.single_le_sum (fun x hx => by
              rcases List.mem_map.mp hx with ⟨q, hq, rfl⟩
              exact softmax_value_nonneg _ q hq) v hv
        _ = 1 := hsum1
  refine ⟨hsum1, hconf0, hconf1, hmax, ?_⟩
  unfold classifyTokens
  rw [if_neg (by
    intro hital
    exact h1 (List.isEmpty_iff.mp hital))]

/-- Witness for C4: the theorem instantiated at a concrete model and input. -/
theorem C4_witness :
    (((probsOf 2 1 CMW ["pipe"] "pipe").map Prod.snd).sum = 1) ∧
    0 ≤ probD (probsOf 2 1 CMW ["pipe"] "pipe") (bestLabel 2 1 CMW ["pipe"] "pipe") ∧
    probD (probsOf 2 1 CMW ["pipe"] "pipe") (bestLabel 2 1 CMW ["pipe"] "pipe") ≤ 1 ∧
    classifyTokens 2 1 CMW ["pipe"] "pipe" =
      .ok ⟨bestLabel 2 1 CMW ["pipe"] "pipe",
        probD (probsOf 2 1 CMW ["pipe"] "pipe") (bestLabel 2 1 CMW ["pipe"] "pipe"),
        boostTags "pipe"⟩ := by
  obtain ⟨a, b, c, _, e⟩ := C4_softmax_distribution 2 1 CMW ["pipe"] "pipe" (by decide) (by decide)
  exact ⟨a, b, c, e⟩

/-- C5: whenever the model loads and the concatenation of the tokenized
title and description is empty, `smartClassify` returns the neutral default
— priority MEDIUM, confidence 0, and no matched rule tag (`inferredType`
absent, the spec's `matchedRuleTag: null`). -/
theorem C5_empty_input_default (bCrit bHigh : ℝ) (cached : Option Model)
    (paths : List (Option ParsedArtifact)) (title description : String)
    (st : Option Model) (M : Model)
    (hload : loadModelIfNeeded cached paths = (st, .ok M))
    (htoks : tokenize title ++ tokenize description = []) :
    smartClassify bCrit bHigh cached paths title description =
      (st, .ok ⟨"MEDIUM", 0, none⟩) := by
  unfold smartClassify
  rw [hload, htoks]
  rfl

/-- Witness for C5: `classify("", "")` with a loaded model returns the
MEDIUM / confidence-0 / no-tag default. -/
theorem C5_witness :
    smartClassify 2 1 (some CMW) [] "" "" = (some CMW, .ok ⟨"MEDIUM", 0, none⟩) :=
  C5_empty_input_default 2 1 (some CMW) [] "" "" (some CMW) CMW rfl (by decide)

/-- C9: when the artifact is missing or unparseable, the load fails with
`Not Trained`, the cached state stays `Unloaded` (`none`), the handler
surfaces the `not_trained` sentinel rather than crashing, and — because the
negative result is not cached — a later request that finds a valid artifact
loads it successfully. -/
theorem C9_not_trained_recovery (bCrit bHigh : ℝ)
    (paths paths2 : List (Option ParsedArtifact)) (title description : String) (m : Model)
    (hfail : firstDecoded paths = none) :
    loadModelIfNeeded none paths = (none, .error .notTrained) ∧
    classifyHandler bCrit bHigh none paths title description = (none, .notTrainedRes) ∧
    (firstDecoded paths2 = some m → loadModelIfNeeded none paths2 = (some m, .ok m)) := by
  have hl : loadModelIfNeeded none paths = (none, .error .notTrained) := by
    unfold loadModelIfNeeded
    rw [hfail]
  refine ⟨hl, ?_, ?_⟩
  · unfold classifyHandler smartClassify
    rw [hl]
  · intro hok
    unfold loadModelIfNeeded
    rw [hok]

/-- Witness for C9: a malformed artifact fails and leaves the state
unloaded; a later well-formed artifact loads. -/
theorem C9_witness :
    loadModelIfNeeded none [some .invalid] = (none, .error .notTrained) ∧
    classifyHandler 2 1 none [some .invalid] "pipe" "leak" = (none, .notTrainedRes) ∧
    loadModelIfNeeded none [none, some (.flat RCW)] = (some CMW, .ok CMW) := by
  obtain ⟨a, b, c⟩ :=
    C9_not_trained_recovery 2 1 [some .invalid] [none, some (.flat RCW)] "pipe" "leak" CMW rfl
  exact ⟨a, b, c rfl⟩

/-- C10: `smartClassify` awaits the model load before the empty-token
check, so with no loadable artifact `classify("", "")` fails with
`Not Trained` instead of returning the MEDIUM / confidence-0 default. -/
theorem C10_load_before_empty_check (bCrit bHigh : ℝ)
    (paths : List (Option ParsedArtifact)) (hfail : firstDecoded paths = none) :
    smartClassify bCrit bHigh none paths "" "" = (none, .error .notTrained) ∧
    (∀ (st : Option Model) (r : SCOut),
      smartClassify bCrit bHigh none paths "" "" ≠ (st, .ok r)) := by
  have hs : smartClassify bCrit bHigh none paths "" "" = (none, .error .notTrained) := by
    unfold smartClassify loadModelIfNeeded
    rw [hfail]
  refine ⟨hs, fun st r hcontra => ?_⟩
  rw [hs] at hcontra
  have := congrArg Prod.snd hcontra
  simp at this

theorem lookup_some_any {s : List (String × ℝ)} {k : String} {v : ℝ}
    (h : s.lookup k = some v) : s.any (fun p => p.1 = k) = true := by
  induction s with
  | nil => simp [List.lookup] at h
  | cons p rest ih =>
    obtain ⟨a, w⟩ := p
    by_cases hk : k = a
    · simp [List.any_cons, hk]
    · rw [List.lookup, beq_false_of_ne hk] at h
      simp [List.any_cons, ih h]

theorem mapBump_exp_sum (k : String) (b : ℝ) :
    ∀ (s : List (String × ℝ)) (v : ℝ), (s.map Prod.fst).Nodup → s.lookup k = some v →
      ((s.map (fun p => if p.1 = k then (p.1, p.2 + b) else p)).map
        (fun p => Real.exp p.2)).sum =
        (s.map (fun p => Real.exp p.2)).sum - Real.exp v + Real.exp (v + b) := by
  intro s
  induction s with
  | nil => intro v _ h; simp [List.lookup] at h
  | cons p rest ih =>
    intro v hnd hk
    obtain ⟨a, w⟩ := p
    rw [List.map_cons, List.nodup_cons] at hnd
    by_cases hka : k = a
    · subst hka
      have hw : w = v := by
        have hh : List.lookup k ((k, w) :: rest) = some w := by simp [List.lookup]
        rw [hh] at hk
        exact Option.some.inj hk
      subst hw
      have hrest : rest.map (fun p => if p.1 = k then (p.1, p.2 + b) else p) = rest := by
        have hnk : ∀ p ∈ rest, (p : String × ℝ).1 ≠ k := by
          intro q hq hqk
          exact hnd.1 (hqk ▸ List.mem_map.mpr ⟨q, hq, rfl⟩)
        calc rest.map (fun p => if p.1 = k then (p.1, p.2 + b) else p) = rest.map id :=
              List.map_congr_left (fun q hq => if_neg (hnk q hq))
          _ = rest := List.map_id rest
      rw [List.map_cons,
        show (if ((k, w) : String × ℝ).1 = k then ((k, w).1, (k, w).2 + b) else (k, w)) =
          (k, w + b) from if_pos rfl, hrest]
      simp only [List.map_cons, List.sum_cons]
      show Real.exp (w + b) + (rest.map (fun p => Real.exp p.2)).sum = _
      ring
    · have hk2 : List.lookup k rest = some v := by
        rw [List.lookup, beq_false_of_ne hka] at hk
        exact hk
      rw [List.map_cons,
        show (if ((a, w) : String × ℝ).1 = k then ((a, w).1, (a, w).2 + b) else (a, w)) =
          (a, w) from if_neg (fun h => hka h.symm)]
      simp only [List.map_cons, List.sum_cons]
      rw [ih v hnd.2 hk2]
      show Real.exp w + _ = _
      ring

theorem bump_exp_sum (s : List (String × ℝ)) (k : String) (b v : ℝ)
    (hnd : (s.map Prod.fst).Nodup) (hk : s.lookup k = some v) :
    ((bump s k b).map (fun p => Real.exp p.2)).sum =
      (s.map (fun p => Real.exp p.2)).sum - Real.exp v + Real.exp (v + b) := by
  unfold bump
  rw [if_pos (lookup_some_any hk)]
  exact mapBump_exp_sum k b s v hnd hk

theorem half_den_eq (s : ℝ) : Real.exp s / (Real.exp s + Real.exp s) = 1 / 2 := by
  have h := Real.exp_pos s
  field_simp
  ring

theorem half_den_lt (a b : ℝ) (h : a < b) :
    Real.exp a / (Real.exp a + Real.exp b) < 1 / 2 := by
  have ha := Real.exp_pos a
  have hb := Real.exp_pos b
  have hab : Real.exp a < Real.exp b := Real.exp_lt_exp.mpr h
  rw [div_lt_iff₀ (by linarith)]
  linarith

/-- C3 (amended): the boost itself is monotone — adding a nonnegative
critical boost to the CRITICAL entry of a fixed log-score list (what
`applyDomainBoost` does for one matching critical rule) never decreases the
CRITICAL softmax probability.  The original end-to-end claim fails because
inserting the phrase also changes the token sequence, and the new tokens'
likelihood terms can outweigh the fixed boost (see the counterexample). -/
theorem C3_boost_monotone_fixed_scores (s : List (String × ℝ)) (v b : ℝ)
    (hnd : (s.map Prod.fst).Nodup) (hmem : ("CRITICAL", v) ∈ s) (hb : 0 ≤ b) :
    probD (softmaxProbs s) "CRITICAL" ≤
      probD (softmaxProbs (bump s "CRITICAL" b)) "CRITICAL" := by
  have hk : s.lookup "CRITICAL" = some v := lookup_of_mem_nodup hnd hmem
  have hne : s ≠ [] := by
    intro h
    subst h
    simp at hmem
  have hbk : (bump s "CRITICAL" b).lookup "CRITICAL" = some (v + b) := by
    rw [bump_lookup, hk]
    rfl
  have hbne : bump s "CRITICAL" b ≠ [] := by
    intro h
    have hkeys := bump_keys s "CRITICAL" b
    rw [h] at hkeys
    exact hne (List.map_eq_nil_iff.mp hkeys.symm)
  have hTpos : 0 < (s.map (fun p => Real.exp p.2)).sum := exp_sum_pos s hne
  have hvT : Real.exp v ≤ (s.map (fun p => Real.exp p.2)).sum := by
    refine List.single_le_sum (fun x hx => ?_) _ ?_
    · rcases List.mem_map.mp hx with ⟨q, _, rfl⟩
      exact le_of_lt (Real.exp_pos _)
    · exact List.mem_map.mpr ⟨("CRITICAL", v), hmem, rfl⟩
  have hexp : ∀ p ∈ s.map (fun p => Real.exp p.2), 0 ≤ p := fun x hx => by
    rcases List.mem_map.mp hx with ⟨q, _, rfl⟩
    exact le_of_lt (Real.exp_pos _)
  rw [probD_softmax_eq s _ v hne hk, probD_softmax_eq _ _ (v + b) hbne hbk,
    bump_exp_sum s _ b v hnd hk, Real.exp_add]
  have hone : 1 ≤ Real.exp b := Real.one_le_exp hb
  have hev := Real.exp_pos v
  have hden : 0 < (s.map (fun p => Real.exp p.2)).sum - Real.exp v +
      Real.exp v * Real.exp b := by nlinarith
  rw [div_le_div_iff₀ hTpos hden]
  nlinarith [mul_nonneg (mul_nonneg (le_of_lt hev) (sub_nonneg.mpr hone))
    (sub_nonneg.mpr hvT)]

/-- Witness for the amended C3: boosting CRITICAL by the default 2.0 on a
concrete two-class score list does not decrease its probability. -/
theorem C3_boost_monotone_witness :
    probD (softmaxProbs [("CRITICAL", (0 : ℝ)), ("LOW", 0)]) "CRITICAL" ≤
      probD (softmaxProbs (bump [("CRITICAL", (0 : ℝ)), ("LOW", 0)] "CRITICAL"
        BOOST_CRITICAL)) "CRITICAL" :=
  C3_boost_monotone_fixed_scores [("CRITICAL", (0 : ℝ)), ("LOW", 0)] 0 BOOST_CRITICAL
    (by simp) (List.mem_cons_self _ _) (by norm_num [BOOST_CRITICAL])

theorem rawScore_step_eq (M : Model) (label : String) :
    (fun (s : ℝ) (tok : String) => match M.features.lookup tok with
      | none => s
      | some _ => s + (Real.log ((tokCount M label tok : ℝ) + M.smoothing) -
          Real.log ((classWordTotal M label : ℝ) + M.smoothing * (vocabSize M : ℝ)))) =
    (fun (s : ℝ) (tok : String) => if (M.features.lookup tok).isSome then
        s + (Real.log ((tokCount M label tok : ℝ) + M.smoothing) -
          Real.log ((classWordTotal M label : ℝ) + M.smoothing * (vocabSize M : ℝ)))
      else s) := by
  funext s tok
  cases h : M.features.lookup tok <;> simp [h]

theorem rawScore_foldl (M : Model) (label : String) :
    ∀ (ts : List String) (init : ℝ),
      ts.foldl (fun (s : ℝ) (tok : String) => if (M.features.lookup tok).isSome then
          s + (Real.log ((tokCount M label tok : ℝ) + M.smoothing) -
            Real.log ((classWordTotal M label : ℝ) + M.smoothing * (vocabSize M : ℝ)))
        else s) init =
      init + ((ts.filter (fun t => (M.features.lookup t).isSome)).map
        (fun t => Real.log ((tokCount M label t : ℝ) + M.smoothing) -
          Real.log ((classWordTotal M label : ℝ) + M.smoothing * (vocabSize M : ℝ)))).sum := by
  intro ts
  induction ts with
  | nil => intro init; simp
  | cons t rest ih =>
    intro init
    simp only [List.foldl_cons]
    by_cases h : (M.features.lookup t).isSome
    · have hfil : List.filter (fun u => (M.features.lookup u).isSome) (t :: rest) =
          t :: List.filter (fun u => (M.features.lookup u).isSome) rest :=
        List.filter_cons_of_pos h
      rw [if_pos h, ih, hfil, List.map_cons, List.sum_cons]
      ring
    · have hfil : List.filter (fun u => (M.features.lookup u).isSome) (t :: rest) =
          List.filter (fun u => (M.features.lookup u).isSome) rest :=
        List.filter_cons_of_neg (by simpa using h)
      rw [if_neg h, ih, hfil]

theorem lookup_ne_nil {t : String} {idx : Nat} {l : List (String × Nat)}
    (h : l.lookup t = some idx) : l ≠ [] := by
  intro hnil
  rw [hnil] at h
  simp [List.lookup] at h

/-- C1: the raw (pre-boost) log-score of each class is the Laplace-smoothed
log prior `log((classTotals[c] + 1) / (totalExamples + numClasses))` plus,
for each token present in the vocabulary, the smoothed log likelihood
`log((count(c, token) + smoothing) / (classWordTotal(c) + smoothing *
vocabSize))`; tokens absent from the vocabulary contribute nothing. -/
theorem C1_raw_log_score (M : Model) (tokens : List String) (label : String)
    (hs : 0 < M.smoothing) (hl : labelsOf M ≠ []) :
    rawScore M tokens label =
      Real.log (((((M.classTotals.lookup label).getD 0 : ℕ) : ℝ) + 1) /
        ((M.totalExamples : ℝ) + ((labelsOf M).length : ℝ))) +
      ((tokens.filter (fun t => (M.features.lookup t).isSome)).map
        (fun t => Real.log (((tokCount M label t : ℝ) + M.smoothing) /
          ((classWordTotal M label : ℝ) + M.smoothing * (vocabSize M : ℝ))))).sum := by
  simp only [rawScore]
  rw [rawScore_step_eq, rawScore_foldl]
  have hpn : ((((M.classTotals.lookup label).getD 0 : ℕ) : ℝ) + 1) ≠ 0 := by positivity
  have hpd : ((M.totalExamples : ℝ) + ((labelsOf M).length : ℝ)) ≠ 0 := by
    have hlen : 0 < (labelsOf M).length := List.length_pos.mpr hl
    have : (0 : ℝ) < (M.totalExamples : ℝ) + ((labelsOf M).length : ℝ) := by
      have h1 : (0 : ℝ) ≤ (M.totalExamples : ℝ) := Nat.cast_nonneg _
      have h2 : (0 : ℝ) < ((labelsOf M).length : ℝ) := by exact_mod_cast hlen
      linarith
    exact ne_of_gt this
  rw [Real.log_div hpn hpd]
  congr 1
  refine congrArg List.sum (List.map_congr_left (fun t ht => ?_))
  have hmem := List.mem_filter.mp ht
  rcases Option.isSome_iff_exists.mp hmem.2 with ⟨idx, hidx⟩
  have hvocab : 0 < vocabSize M := List.length_pos.mpr (lookup_ne_nil hidx)
  have ha : ((tokCount M label t : ℝ) + M.smoothing) ≠ 0 := by
    have h1 : (0 : ℝ) ≤ (tokCount M label t : ℝ) := Nat.cast_nonneg _
    linarith
  have hb : ((classWordTotal M label : ℝ) + M.smoothing * (vocabSize M : ℝ)) ≠ 0 := by
    have h1 : (0 : ℝ) ≤ (classWordTotal M label : ℝ) := Nat.cast_nonneg _
    have h2 : (0 : ℝ) < M.smoothing * (vocabSize M : ℝ) := by
      have : (0 : ℝ) < (vocabSize M : ℝ) := by exact_mod_cast hvocab
      exact mul_pos hs this
    linarith
  rw [Real.log_div ha hb]

/-- Witness for C1: the score formula instantiated at a concrete model,
token list (one token in the vocabulary, one out) and class. -/
theorem C1_witness :
    rawScore CMW ["pipe", "unknown"] "LOW" =
      Real.log (((((CMW.classTotals.lookup "LOW").getD 0 : ℕ) : ℝ) + 1) /
        ((CMW.totalExamples : ℝ) + ((labelsOf CMW).length : ℝ))) +
      (((["pipe", "unknown"] : List String).filter
          (fun t => (CMW.features.lookup t).isSome)).map
        (fun t => Real.log (((tokCount CMW "LOW" t : ℝ) + CMW.smoothing) /
          ((classWordTotal CMW "LOW" : ℝ) + CMW.smoothing * (vocabSize CMW : ℝ))))).sum :=
  C1_raw_log_score CMW ["pipe", "unknown"] "LOW" (by norm_num [CMW]) (by decide)

/-- Counterexample to C3 as stated: "pipe issue" matches no rule, and the
inserted phrase ", boil water advisory issued" matches exactly one critical
rule (tag boil_water_advisory, boost +2.0); yet on the model `CM3` — whose
LOW class has seen the inserted tokens often while CRITICAL has seen
nothing — the four extra tokens swing the likelihood towards LOW by far
more than the boost adds, so the CRITICAL probability *drops* (from 1/2 to
under 1/50).  The claim's universally quantified monotonicity is false. -/
theorem C3_counterexample :
    probD (probsOf BOOST_CRITICAL BOOST_HIGH CM3
        (tokenize "pipe issue, boil water advisory issued")
        "pipe issue, boil water advisory issued") "CRITICAL" <
      probD (probsOf BOOST_CRITICAL BOOST_HIGH CM3 (tokenize "pipe issue") "pipe issue")
        "CRITICAL" := by
  have eC1 : rawScore CM3 (tokenize "pipe issue") "CRITICAL" = Real.log 2 - Real.log 4 := by
    rw [show tokenize "pipe issue" = ["pipe", "issue"] from by decide]
    simp only [rawScore]
    rw [rawScore_step_eq, rawScore_foldl]
    rw [show (["pipe", "issue"].filter (fun t => (CM3.features.lookup t).isSome)) = []
      from by decide]
    rw [show ((CM3.classTotals.lookup "CRITICAL").getD 0) = 1 from by decide,
      show CM3.totalExamples = 2 from rfl,
      show (labelsOf CM3).length = 2 from by decide]
    norm_num
  have eL1 : rawScore CM3 (tokenize "pipe issue") "LOW" = Real.log 2 - Real.log 4 := by
    rw [show tokenize "pipe issue" = ["pipe", "issue"] from by decide]
    simp only [rawScore]
    rw [rawScore_step_eq, rawScore_foldl]
    rw [show (["pipe", "issue"].filter (fun t => (CM3.features.lookup t).isSome)) = []
      from by decide]
    rw [show ((CM3.classTotals.lookup "LOW").getD 0) = 1 from by decide,
      show CM3.totalExamples = 2 from rfl,
      show (labelsOf CM3).length = 2 from by decide]
    norm_num
  have eC2 : rawScore CM3 (tokenize "pipe issue, boil water advisory issued") "CRITICAL" =
      Real.log 2 - Real.log 4 - 4 * Real.log 25 := by
    rw [show tokenize "pipe issue, boil water advisory issued" =
      ["pipe", "issue", "boil", "water", "advisory", "issu"] from by decide]
    simp only [rawScore]
    rw [rawScore_step_eq, rawScore_foldl]
    rw [show (["pipe", "issue", "boil", "water", "advisory", "issu"].filter
        (fun t => (CM3.features.lookup t).isSome)) = ["boil", "water", "advisory", "issu"]
      from by decide]
    simp only [List.map_cons, List.map_nil, List.sum_cons, List.sum_nil]
    rw [show tokCount CM3 "CRITICAL" "boil" = 0 from by decide,
      show tokCount CM3 "CRITICAL" "water" = 0 from by decide,
      show tokCount CM3 "CRITICAL" "advisory" = 0 from by decide,
      show tokCount CM3 "CRITICAL" "issu" = 0 from by decide,
      show classWordTotal CM3 "CRITICAL" = 0 from by decide,
      show vocabSize CM3 = 25 from by decide,
      show CM3.smoothing = 1 from rfl,
      show ((CM3.classTotals.lookup "CRITICAL").getD 0) = 1 from by decide,
      show CM3.totalExamples = 2 from rfl,
      show (labelsOf CM3).length = 2 from by decide]
    norm_num [Real.log_one]
    ring
  have eL2 : rawScore CM3 (tokenize "pipe issue, boil water advisory issued") "LOW" =
      Real.log 2 - Real.log 4 + 4 * (Real.log 7 - Real.log 49) := by
    rw [show tokenize "pipe issue, boil water advisory issued" =
      ["pipe", "issue", "boil", "water", "advisory", "issu"] from by decide]
    simp only [rawScore]
    rw [rawScore_step_eq, rawScore_foldl]
    rw [show (["pipe", "issue", "boil", "water", "advisory", "issu"].filter
        (fun t => (CM3.features.lookup t).isSome)) = ["boil", "water", "advisory", "issu"]
      from by decide]
    simp only [List.map_cons, List.map_nil, List.sum_cons, List.sum_nil]
    rw [show tokCount CM3 "LOW" "boil" = 6 from by decide,
      show tokCount CM3 "LOW" "water" = 6 from by decide,
      show tokCount CM3 "LOW" "advisory" = 6 from by decide,
      show tokCount CM3 "LOW" "issu" = 6 from by decide,
      show classWordTotal CM3 "LOW" = 24 from by decide,
      show vocabSize CM3 = 25 from by decide,
      show CM3.smoothing = 1 from rfl,
      show ((CM3.classTotals.lookup "LOW").getD 0) = 1 from by decide,
      show CM3.totalExamples = 2 from rfl,
      show (labelsOf CM3).length = 2 from by decide]
    norm_num
    ring
  have hbase1 : boostedScores BOOST_CRITICAL BOOST_HIGH CM3 (tokenize "pipe issue")
      "pipe issue" =
      [("CRITICAL", rawScore CM3 (tokenize "pipe issue") "CRITICAL"),
       ("LOW", rawScore CM3 (tokenize "pipe issue") "LOW")] := by
    simp only [boostedScores, applyDomainBoost]
    rw [show critHits ("pipe issue".data.map jsToLower) = []
      from List.length_eq_zero.mp (by decide),
      show highHits ("pipe issue".data.map jsToLower) = []
      from List.length_eq_zero.mp (by decide)]
    simp only [List.foldl_nil]
    rfl
  obtain ⟨r1, hr1⟩ : ∃ a, critHits
      ("pipe issue, boil water advisory issued".data.map jsToLower) = [a] :=
    List.length_eq_one.mp (by decide)
  have hbump : ∀ x y : ℝ, bump [("CRITICAL", x), ("LOW", y)] "CRITICAL" BOOST_CRITICAL =
      [("CRITICAL", x + BOOST_CRITICAL), ("LOW", y)] := by
    intro x y
    simp [bump]
  have hbase2 : boostedScores BOOST_CRITICAL BOOST_HIGH CM3
      (tokenize "pipe issue, boil water advisory issued")
      "pipe issue, boil water advisory issued" =
      [("CRITICAL", rawScore CM3 (tokenize "pipe issue, boil water advisory issued")
          "CRITICAL" + BOOST_CRITICAL),
       ("LOW", rawScore CM3 (tokenize "pipe issue, boil water advisory issued") "LOW")] := by
    simp only [boostedScores, applyDomainBoost]
    rw [hr1, show highHits ("pipe issue, boil water advisory issued".data.map jsToLower) = []
      from List.length_eq_zero.mp (by decide)]
    simp only [List.foldl_cons, List.foldl_nil]
    rw [show ((labelsOf CM3).map (fun l => (l,
      rawScore CM3 (tokenize "pipe issue, boil water advisory issued") l))) =
      [("CRITICAL", rawScore CM3 (tokenize "pipe issue, boil water advisory issued")
          "CRITICAL"),
       ("LOW", rawScore CM3 (tokenize "pipe issue, boil water advisory issued") "LOW")]
      from rfl]
    exact hbump _ _
  have hp1 : probD (probsOf BOOST_CRITICAL BOOST_HIGH CM3 (tokenize "pipe issue")
      "pipe issue") "CRITICAL" = 1 / 2 := by
    rw [show probsOf BOOST_CRITICAL BOOST_HIGH CM3 (tokenize "pipe issue") "pipe issue" =
      softmaxProbs (boostedScores BOOST_CRITICAL BOOST_HIGH CM3 (tokenize "pipe issue")
        "pipe issue") from rfl, hbase1, eC1, eL1]
    rw [probD_softmax_eq _ "CRITICAL" (Real.log 2 - Real.log 4) (by simp)
      (by simp [List.lookup])]
    simp only [List.map_cons, List.map_nil, List.sum_cons, List.sum_nil, add_zero]
    exact half_den_eq _
  have hp2 : probD (probsOf BOOST_CRITICAL BOOST_HIGH CM3
      (tokenize "pipe issue, boil water advisory issued")
      "pipe issue, boil water advisory issued") "CRITICAL" =
      Real.exp (Real.log 2 - Real.log 4 - 4 * Real.log 25 + BOOST_CRITICAL) /
        (Real.exp (Real.log 2 - Real.log 4 - 4 * Real.log 25 + BOOST_CRITICAL) +
          Real.exp (Real.log 2 - Real.log 4 + 4 * (Real.log 7 - Real.log 49))) := by
    rw [show probsOf BOOST_CRITICAL BOOST_HIGH CM3
      (tokenize "pipe issue, boil water advisory issued")
      "pipe issue, boil water advisory issued" =
      softmaxProbs (boostedScores BOOST_CRITICAL BOOST_HIGH CM3
        (tokenize "pipe issue, boil water advisory issued")
        "pipe issue, boil water advisory issued") from rfl, hbase2, eC2, eL2]
    rw [probD_softmax_eq _ "CRITICAL"
      (Real.log 2 - Real.log 4 - 4 * Real.log 25 + BOOST_CRITICAL) (by simp)
      (by simp [List.lookup])]
    simp only [List.map_cons, List.map_nil, List.sum_cons, List.sum_nil, add_zero]
  rw [hp1, hp2]
  have h49 : Real.log 49 = 2 * Real.log 7 := by
    rw [show (49 : ℝ) = 7 ^ 2 from by norm_num, Real.log_pow]
    push_cast
    ring
  have hhalf : (1 / 2 : ℝ) < Real.log 25 - Real.log 7 := by
    rw [← Real.log_div (by norm_num) (by norm_num)]
    refine (Real.lt_log_iff_exp_lt (by norm_num)).mpr ?_
    have hsq : Real.exp (1 / 2 : ℝ) * Real.exp (1 / 2 : ℝ) = Real.exp 1 := by
      rw [← Real.exp_add]
      norm_num
    have he1 : Real.exp 1 < 2.7182818286 := Real.exp_one_lt_d9
    nlinarith [Real.exp_pos (1 / 2 : ℝ)]
  refine half_den_lt _ _ ?_
  rw [show BOOST_CRITICAL = 2 from rfl]
  linarith

/-- C8: every rule whose pattern matches the lowercased raw text adds its
full fixed boost to its class's log-score (critical rules to CRITICAL, high
rules to HIGH, only when that key exists), boosts accumulate additively
without a cap (once per matching rule), other classes are untouched, the
diagnostic tags are the matched critical tags followed by the matched high
tags in rule order, and the returned `matchedRuleTag` (`inferredType`) is
the head of that list — the first matching rule's tag, or none when no rule
matches. -/
theorem C8_domain_boost (bCrit bHigh : ℝ) (rawText : String) (s : List (String × ℝ))
    (M : Model) (paths : List (Option ParsedArtifact)) (title description : String)
    (h1 : labelsOf M ≠ []) (h2 : tokenize title ++ tokenize description ≠ []) :
    ((applyDomainBoost bCrit bHigh rawText s).1.lookup "CRITICAL" =
      (s.lookup "CRITICAL").map
        (· + ((critHits (rawText.data.map jsToLower)).length : ℝ) * bCrit)) ∧
    ((applyDomainBoost bCrit bHigh rawText s).1.lookup "HIGH" =
      (s.lookup "HIGH").map
        (· + ((highHits (rawText.data.map jsToLower)).length : ℝ) * bHigh)) ∧
    (∀ k : String, k ≠ "CRITICAL" → k ≠ "HIGH" →
      (applyDomainBoost bCrit bHigh rawText s).1.lookup k = s.lookup k) ∧
    ((applyDomainBoost bCrit bHigh rawText s).2 =
      (critHits (rawText.data.map jsToLower)).map Rule.tag ++
        (highHits (rawText.data.map jsToLower)).map Rule.tag) ∧
    (smartClassify bCrit bHigh (some M) paths title description =
      (some M, .ok
        ⟨bestLabel bCrit bHigh M (tokenize title ++ tokenize description)
            ((title ++ " " ++ description).trim),
          probD
            (probsOf bCrit bHigh M (tokenize title ++ tokenize description)
              ((title ++ " " ++ description).trim))
            (bestLabel bCrit bHigh M (tokenize title ++ tokenize description)
              ((title ++ " " ++ description).trim)),
          (boostTags ((title ++ " " ++ description).trim)).head?⟩)) := by
  refine ⟨adb_lookup_CRITICAL bCrit bHigh rawText s, adb_lookup_HIGH bCrit bHigh rawText s,
    fun k hk1 hk2 => adb_lookup_other bCrit bHigh rawText s k hk1 hk2,
    adb_tags bCrit bHigh rawText s, ?_⟩
  simp only [smartClassify, loadModelIfNeeded]
  rw [if_neg (fun hh => h2 (List.isEmpty_iff.mp hh))]
  simp only [classifyTokens]
  rw [if_neg (fun hh => h1 (List.isEmpty_iff.mp hh))]

/-- Witness for C8: a text matching one critical rule and two high rules;
the boosts add once per matching rule, the LOW entry is untouched, and the
first matched tag is surfaced. -/
theorem C8_witness :
    ((applyDomainBoost 2 1 "no water at central hospital, major leak, road closure"
        [("CRITICAL", (0 : ℝ)), ("HIGH", 0), ("LOW", 0)]).1.lookup "CRITICAL" =
      (([("CRITICAL", (0 : ℝ)), ("HIGH", 0), ("LOW", 0)]).lookup "CRITICAL").map
        (· + ((critHits (("no water at central hospital, major leak, road closure").data.map
          jsToLower)).length : ℝ) * 2)) ∧
    ((applyDomainBoost 2 1 "no water at central hospital, major leak, road closure"
        [("CRITICAL", (0 : ℝ)), ("HIGH", 0), ("LOW", 0)]).1.lookup "HIGH" =
      (([("CRITICAL", (0 : ℝ)), ("HIGH", 0), ("LOW", 0)]).lookup "HIGH").map
        (· + ((highHits (("no water at central hospital, major leak, road closure").data.map
          jsToLower)).length : ℝ) * 1)) ∧
    ((applyDomainBoost 2 1 "no water at central hospital, major leak, road closure"
        [("CRITICAL", (0 : ℝ)), ("HIGH", 0), ("LOW", 0)]).1.lookup "LOW" =
      ([("CRITICAL", (0 : ℝ)), ("HIGH", 0), ("LOW", 0)]).lookup "LOW") ∧
    ((applyDomainBoost 2 1 "no water at central hospital, major leak, road closure"
        [("CRITICAL", (0 : ℝ)), ("HIGH", 0), ("LOW", 0)]).2 =
      (critHits (("no water at central hospital, major leak, road closure").data.map
        jsToLower)).map Rule.tag ++
        (highHits (("no water at central hospital, major leak, road closure").data.map
          jsToLower)).map Rule.tag) ∧
    (smartClassify 2 1 (some CMW) [] "major leak" "" =
      (some CMW, .ok
        ⟨bestLabel 2 1 CMW (tokenize "major leak" ++ tokenize "")
            (("major leak" ++ " " ++ "").trim),
          probD
            (probsOf 2 1 CMW (tokenize "major leak" ++ tokenize "")
              (("major leak" ++ " " ++ "").trim))
            (bestLabel 2 1 CMW (tokenize "major leak" ++ tokenize "")
              (("major leak" ++ " " ++ "").trim)),
          (boostTags (("major leak" ++ " " ++ "").trim)).head?⟩)) := by
  obtain ⟨a, b, c, d, _⟩ := C8_domain_boost 2 1
    "no water at central hospital, major leak, road closure"
    [("CRITICAL", (0 : ℝ)), ("HIGH", 0), ("LOW", 0)] CMW [] "x" "y" (by decide) (by decide)
  obtain ⟨_, _, _, _, e⟩ := C8_domain_boost 2 1 "" [] CMW [] "major leak" ""
    (by decide) (by decide)
  exact ⟨a, b, c "LOW" (by decide) (by decide), d, e⟩

/-- Counterexample to C6 as stated: the source's guards test the length of
the *original* word, not the resulting stem.  "string" has length 6 > 5, so
the "ing" rule fires and yields the stem "str" of length 3 — but the claim
(resulting stem length > 5) says no rule may fire, leaving "string". -/
theorem C6_counterexample :
    lightStem "string" = "str" ∧ specLightStem "string" = "string" ∧
      lightStem "string" ≠ specLightStem "string" := by
  refine ⟨by decide, by decide, by decide⟩

/-- C6 (amended): `lightStem` applies the ordered, mutually exclusive rules
strip "ing" / "ed" / "es" / "s" with first match wins and at most one
suffix stripped — each guard comparing the *original* word length against
5 / 4 / 4 / 3 respectively. -/
theorem C6_first_match_original_length :
    ∀ w : String, lightStem w = applyFirstRule stripRules w :=
  fun _ => rfl

/-- Counterexample to C7 as stated: tokenizing "inspections" yields
["inspection"] — the trailing "ns" matches neither "es" nor "ing"/"ed", so
only the final "s" is stripped; the token "inspect" does not occur. -/
theorem C7_counterexample :
    tokenize "inspections" = ["inspection"] ∧ "inspect" ∉ tokenize "inspections" := by
  refine ⟨by decide, by decide⟩

/-- C7 (amended): tokenizing "inspections" yields a sequence containing
"inspection" (the "s" rule fires; original length 11 > 3). -/
theorem C7_contains_inspection :
    "inspection" ∈ tokenize "inspections" := by decide

/-- C2 (supporting evaluation): in this repository the trainer's only text
transformation is `normalize`, which performs no stopword removal and no
suffix stripping — it fixes "the inspections" — while the inference
tokenizer maps the same text to ["inspection"].  The actual trainer-side
tokenization and stemming happen inside the external `natural` library
(`BayesClassifier.addDocument`, default Porter stemmer), which is not part
of this repository and does not reproduce `lightStem`. -/
theorem C2_trainer_normalization_divergence :
    normalize "the inspections" = "the inspections" ∧
      tokenize "the inspections" = ["inspection"] := by
  refine ⟨by decide, by decide⟩

/-- Witness for C10: with no artifact at any path, `classify("", "")`
errors instead of defaulting. -/
theorem C10_witness :
    smartClassify 2 1 none [none, none] "" "" = (none, .error .notTrained) ∧
    smartClassify 2 1 none [none, none] "" "" ≠ (none, .ok ⟨"MEDIUM", 0, none⟩) := by
  obtain ⟨a, b⟩ := C10_load_before_empty_check 2 1 [none, none] rfl
  exact ⟨a, b none ⟨"MEDIUM", 0, none⟩⟩

end I2R
